import Mathlib

/-!
Shallow embedding of the CSV normalization and metrics-derivation pipeline of
`src/app.py` (eBay sales analytics dashboard).

The embedding starts at the boundary the spec itself fixes: a `RawTable` models
the `pandas.DataFrame` produced by `pd.read_csv(header=None, on_bad_lines=skip)`,
i.e. a table width `numCols` (set by the reader from the file) together with the
rows, where each cell is `Option String` (`none` models a `NaN`, which pandas
inserts for missing cells; out-of-range reads of a ragged row therefore default
to `none`).  Python floats are modelled as exact rationals (`ℚ`), Python ints as
`ℤ`.  `pd.to_numeric with errors-coerce` is modelled by a decimal-numeral parser
(`parseNumeric`); scientific notation is not exercised by any claim and is not
modelled.  `pd.to_datetime with errors-coerce` is modelled by `parseDate`, which
maps a `YYYY-MM-DD HH:MM:SS` style cell to the lexicographic natural number of
its 14 digits (so that chronological order is preserved), and anything else to
`none` (`NaT`).
-/

/-! ### Character and string utilities (models of the Python string methods used) -/

/-- Whitespace recognised by `str.strip()` (the characters that occur in the data). -/
def isSpaceChar (c : Char) : Bool :=
  c == ' ' || c == '\t' || c == '\n' || c == '\r'

/-- Model of Python `str.strip()` / pandas `.str.strip()`. -/
def trimStr (s : String) : String :=
  String.mk (((s.data.dropWhile isSpaceChar).reverse.dropWhile isSpaceChar).reverse)

/-- ASCII lower-casing of one character (model of `str.lower()` on the data involved). -/
def lowerChar (c : Char) : Char :=
  if c.toNat ≥ 65 && c.toNat ≤ 90 then Char.ofNat (c.toNat + 32) else c

/-- Model of Python `str.lower()`. -/
def lowerStr (s : String) : String :=
  String.mk (s.data.map lowerChar)

/-- Model of Python `str.replace(ch, "")` (removes every occurrence). -/
def removeChar (ch : Char) (s : String) : String :=
  String.mk (s.data.filter (fun c => !(c == ch)))

/-- Does the second list start with the first? -/
def leadsWith : List Char → List Char → Bool
  | [], _ => true
  | _ :: _, [] => false
  | p :: ps, c :: cs => p == c && leadsWith ps cs

/-- Auxiliary scan for substring containment. -/
def containsAux (p : List Char) : List Char → Bool
  | [] => leadsWith p []
  | c :: cs => leadsWith p (c :: cs) || containsAux p cs

/-- Model of Python `pat in s` (substring containment). -/
def hasSub (s pat : String) : Bool :=
  containsAux pat.data s.data

/-- Model of Python `ch in s` for a single character. -/
def charIn (c : Char) (s : String) : Bool :=
  s.data.contains c

/-- Matching of one regex pattern character: a dot is a wildcard matching any
character, every other character matches literally.  This covers patterns, such
as `"ebay.com"`, whose only regex metacharacter is the dot. -/
def regexCharMatches (p c : Char) : Bool :=
  p == '.' || p == c

/-- Does the second list start with a match of the dot-wildcard pattern? -/
def regexLeads : List Char → List Char → Bool
  | [], _ => true
  | _ :: _, [] => false
  | p :: ps, c :: cs => regexCharMatches p c && regexLeads ps cs

/-- Scan for a match of the dot-wildcard pattern anywhere in the list
(model of `re.search` for such patterns). -/
def regexSearch (p : List Char) : List Char → Bool
  | [] => regexLeads p []
  | c :: cs => regexLeads p (c :: cs) || regexSearch p cs

/-- Model of pandas `Series.str.contains(pat, na=False)` on a string value:
the pattern is a REGEX by default (`regex=True`), so for the patterns used here
a dot matches any character. -/
def regexContains (s pat : String) : Bool :=
  regexSearch pat.data s.data

/-- Numeric value of a digit string (most significant digit first). -/
def natOfDigits (cs : List Char) : Nat :=
  cs.foldl (fun a c => a * 10 + (c.toNat - 48)) 0

/-- Nonempty and all characters are decimal digits. -/
def allDigits (cs : List Char) : Bool :=
  !cs.isEmpty && cs.all Char.isDigit

/-- Model of Python `str.isdigit()` (ASCII digits; the data contains no exotic digits). -/
def pyIsDigit (s : String) : Bool :=
  allDigits s.data

/-! ### Numeric coercion (models of `pd.to_numeric`, `astype(int)`, `astype(float)`) -/

/-- Parse an unsigned decimal numeral `digits [. digits]` as an exact rational. -/
def parseUnsigned (cs : List Char) : Option ℚ :=
  if cs.contains '.' then
    let ip := cs.takeWhile (fun c => !(c == '.'))
    let fp := (cs.dropWhile (fun c => !(c == '.'))).drop 1
    if fp.contains '.' then none
    else if ip.all Char.isDigit && fp.all Char.isDigit && !(ip.isEmpty && fp.isEmpty) then
      some ((natOfDigits ip : ℚ) + (natOfDigits fp : ℚ) / (10 : ℚ) ^ fp.length)
    else none
  else if allDigits cs then some (natOfDigits cs : ℚ) else none

/-- Model of `pd.to_numeric, errors-coerce,` on a string cell: optional
sign, decimal numeral; anything else coerces to `NaN` (`none`). -/
def parseNumeric (s : String) : Option ℚ :=
  match (trimStr s).data with
  | '-' :: rest => (parseUnsigned rest).map (fun q => -q)
  | '+' :: rest => parseUnsigned rest
  | cs => parseUnsigned cs

/-- Truncation toward zero, the behaviour of Python `astype(int)` on a float. -/
def rtrunc (q : ℚ) : ℤ :=
  if 0 ≤ q.num then ((q.num.toNat / q.den : ℕ) : ℤ)
  else -(((-q.num).toNat / q.den : ℕ) : ℤ)

/-- Model of `astype(str)` on one cell: `str(nan) = "nan"`. -/
def cellStr : Option String → String
  | some s => s
  | none => "nan"

/-- Model of `to_numeric` with errors-coerce, then `fillna(0).astype(int)`, on one cell. -/
def coerceInt (c : Option String) : ℤ :=
  match c with
  | none => 0
  | some s =>
    match parseNumeric s with
    | none => 0
    | some q => rtrunc q

/-- Price coercion of `app.py` lines 61-63: `astype(str)`, remove `$`, remove
commas, strip, `to_numeric with errors-coerce.fillna(0)`. -/
def coercePrice (c : Option String) : ℚ :=
  (parseNumeric (trimStr (removeChar ',' (removeChar '$' (cellStr c))))).getD 0

/-- Model of `pd.to_datetime with errors-coerce` on one cell: a timestamp cell of
the data (`YYYY-MM-DD HH:MM:SS`, 14 digits) maps to the lexicographic natural
number of its digits, preserving chronological order; anything else is `NaT`. -/
def parseDate (c : Option String) : Option ℕ :=
  match c with
  | none => none
  | some s =>
    let ds := s.data.filter Char.isDigit
    if ds.length == 14 then some (natOfDigits ds) else none

/-- The vectorized growth-percent computation of `app.py` lines 71-74, per row:
0 by default; `(jan - dec)/dec * 100` where `dec > 0`; 100 where `dec ≤ 0` and
`jan > 0`. -/
def growthPctOf (dec jan : ℤ) : ℚ :=
  if 0 < dec then (((jan : ℚ) - (dec : ℚ)) / (dec : ℚ)) * 100
  else if 0 < jan then 100 else 0

/-- First match of the regular expression `/itm/(\d+)`: the digit run after the
first occurrence of `/itm/` that is followed by at least one digit. -/
def itmDigits : List Char → Option (List Char)
  | [] => none
  | c :: cs =>
    if leadsWith ['/', 'i', 't', 'm', '/'] (c :: cs) then
      let d := ((c :: cs).drop 5).takeWhile Char.isDigit
      if d.isEmpty then itmDigits cs else some d
    else itmDigits cs

/-- Model of `app.py` line 81, `URL.str.extract(/itm/(\d+)).fillna("N/A")`; the `.str`
accessor yields `NaN` (hence `"N/A"`) on a `NaN` cell. -/
def extractItemId (c : Option String) : String :=
  match c with
  | none => "N/A"
  | some s =>
    match itmDigits s.data with
    | some d => String.mk d
    | none => "N/A"

/-- The currency-likeness test of `app.py` line 42 on the sampled value:
contains `$`, or is all digits after removing `.` and `,` while containing `.`. -/
def currencyLike (s : String) : Bool :=
  charIn '$' s ||
    (pyIsDigit (removeChar ',' (removeChar '.' s)) && charIn '.' s)

/-! ### Data model -/

/-- Column layout assigned to a source: positions of the coerced fields.
`priceIdx = none` means the schema has no price column (Price defaulted to 0);
`statusIdx = none` means no status column (Status defaulted to `"N/A"`).
Product is always column 0 and URL column 1. -/
structure Layout where
  priceIdx : Option Nat
  decIdx : Nat
  janIdx : Nat
  dateIdx : Nat
  statusIdx : Option Nat
deriving DecidableEq

/-- One fully coerced, metric-bearing row of the output Dataset (the column set
selected at `app.py` lines 89-90). -/
structure NormalizedRecord where
  product : String
  url : String
  dec_sales : ℤ
  jan_sales : ℤ
  price : ℚ
  total_sales : ℤ
  growth : ℤ
  growth_pct : ℚ
  dec_revenue : ℚ
  jan_revenue : ℚ
  total_revenue : ℚ
  revenue_growth : ℚ
  date_checked : Option ℕ
  status : String
  item_id : String

/-- The table produced by `pd.read_csv with no header row and bad lines skipped`:
a width (number of columns, fixed by the reader) and the rows of cells.
`none` cells model `NaN`. -/
structure RawTable where
  numCols : Nat
  rows : List (List (Option String))

/-- Layout of the priced (7+ column) schema, `app.py` line 46. -/
def layoutPriced : Layout :=
  { priceIdx := some 2, decIdx := 3, janIdx := 4, dateIdx := 5, statusIdx := some 6 }

/-- Layout of the no-price standard (6+ column) schema, `app.py` lines 47-49. -/
def layoutStd : Layout :=
  { priceIdx := none, decIdx := 2, janIdx := 3, dateIdx := 4, statusIdx := some 5 }

/-- Layout of the no-price short (5 column) schema, `app.py` lines 50-53. -/
def layoutShort : Layout :=
  { priceIdx := none, decIdx := 2, janIdx := 3, dateIdx := 4, statusIdx := none }

/-- Header stripping of `app.py` lines 33-34: drop the first row when its first
cell is a (truthy) string whose lower-casing contains `"keyword"`. -/
def stripHeader : List (List (Option String)) → List (List (Option String))
  | [] => []
  | r :: rest =>
    match r.getD 0 none with
    | some s => if hasSub (lowerStr s) "keyword" then rest else r :: rest
    | none => r :: rest

/-- The data rows of a source (header removed). -/
def dataRows (t : RawTable) : List (List (Option String)) :=
  stripHeader t.rows

/-- Model of `app.py` line 41, `str(df.iloc[0, 2]) if len(df) > 0 else ""` — the sampled
value is taken from the FIRST data row only. -/
def sampleVal (rows : List (List (Option String))) : String :=
  match rows with
  | [] => ""
  | r :: _ => cellStr (r.getD 2 none)

/-- Format detection of `app.py` lines 40-43: the source is `new` (priced) iff
it has at least 7 columns and the first data row's position-2 cell is
currency-like. -/
def formatNew (t : RawTable) : Bool :=
  decide (7 ≤ t.numCols) && currencyLike (sampleVal (dataRows t))

/-- Column-layout assignment of `app.py` lines 45-56.  `none` models the
structural-failure branch (`st.error` + empty DataFrame), which is also taken
when the frame has no rows at all (`df.iloc[0, 0]` raises and the exception
handler returns an empty DataFrame). -/
def layoutOf (t : RawTable) : Option Layout :=
  if t.rows.isEmpty then none
  else if formatNew t then some layoutPriced
  else if 6 ≤ t.numCols then some layoutStd
  else if 5 ≤ t.numCols then some layoutShort
  else none

/-- The coerced price of a row under a layout (`Price` column, or the constant
0.0 column added for no-price schemas). -/
def priceOf (L : Layout) (row : List (Option String)) : ℚ :=
  match L.priceIdx with
  | some i => coercePrice (row.getD i none)
  | none => 0

/-- The coerced status of a row under a layout (`astype(str)` only — `app.py`
line 85 — or the constant `"N/A"` column added for the short schema). -/
def statusOf (L : Layout) (row : List (Option String)) : String :=
  match L.statusIdx with
  | some i => cellStr (row.getD i none)
  | none => "N/A"

/-- Per-row normalization: the field coercions and derived-metric computations
of `app.py` lines 58-85, under the layout assigned to the source. -/
def normalizeRow (L : Layout) (row : List (Option String)) : NormalizedRecord :=
  let dec := coerceInt (row.getD L.decIdx none)
  let jan := coerceInt (row.getD L.janIdx none)
  let price := priceOf L row
  { product := trimStr (cellStr (row.getD 0 none))
    url := trimStr (cellStr (row.getD 1 none))
    dec_sales := dec
    jan_sales := jan
    price := price
    total_sales := dec + jan
    growth := jan - dec
    growth_pct := growthPctOf dec jan
    dec_revenue := (dec : ℚ) * price
    jan_revenue := (jan : ℚ) * price
    total_revenue := ((dec + jan : ℤ) : ℚ) * price
    revenue_growth := (jan : ℚ) * price - (dec : ℚ) * price
    date_checked := parseDate (row.getD L.dateIdx none)
    status := statusOf L row
    item_id := extractItemId (row.getD 1 none) }

/-- The hard row filter of `app.py` line 87,
`URL.str.contains("ebay.com", na=False)`: pandas `str.contains` treats the
pattern as a regex by default, so the dot is a wildcard — a record is kept iff
its URL contains `ebay`, then ANY one character, then `com`. -/
def keepRow (r : NormalizedRecord) : Bool :=
  regexContains r.url "ebay.com"

/-- The marketplace-domain filter applied to a whole Dataset. -/
def domainFilter (d : List NormalizedRecord) : List NormalizedRecord :=
  d.filter keepRow

/-- The whole pipeline `parse_sales_data` of `app.py` lines 25-94: header strip,
schema detection, per-row coercion and metric derivation, domain filter.
`none` models the structural-failure outcome (empty DataFrame plus a
user-facing `st.error`). -/
def parse_sales_data (t : RawTable) : Option (List NormalizedRecord) :=
  (layoutOf t).map (fun L => domainFilter ((dataRows t).map (normalizeRow L)))

/-! ### The filter function (`apply_filters`, `app.py` lines 96-120) -/

/-- Time-window stage: with an active cutoff (models
`datetime.now() - a timedelta of the selected minutes`), keep rows whose
`Date Checked` is at least the cutoff; a `NaT` date compares false. -/
def timeStage (cutoff : Option ℕ) (d : List NormalizedRecord) : List NormalizedRecord :=
  match cutoff with
  | some c =>
    d.filter (fun r =>
      match r.date_checked with
      | some ts => decide (c ≤ ts)
      | none => false)
  | none => d

/-- Product-equality stage. -/
def productStage (selectedProduct : String) (d : List NormalizedRecord) : List NormalizedRecord :=
  if selectedProduct ≠ "All Products" then d.filter (fun r => r.product == selectedProduct) else d

/-- Performance-category stage. -/
def perfStage (performanceFilter : String) (d : List NormalizedRecord) : List NormalizedRecord :=
  if performanceFilter = "Growing (Jan > Dec)" then d.filter (fun r => decide (0 < r.growth))
  else if performanceFilter = "Declining (Jan < Dec)" then d.filter (fun r => decide (r.growth < 0))
  else if performanceFilter = "No Sales" then d.filter (fun r => r.total_sales == 0)
  else if performanceFilter = "New Sales (Dec=0, Jan>0)" then
    d.filter (fun r => r.dec_sales == 0 && decide (0 < r.jan_sales))
  else d

/-- Model of `apply_filters`, `app.py` lines 96-120: the function copies its input
(`df.copy()`) and returns a new frame; here that is the purity of the
definition.  The stages are applied in source order. -/
def apply_filters (d : List NormalizedRecord) (cutoff : Option ℕ)
    (selectedProduct performanceFilter : String)
    (minTotalSales minJanSales : ℤ) : List NormalizedRecord :=
  ((perfStage performanceFilter (productStage selectedProduct (timeStage cutoff d))).filter
      (fun r => decide (minTotalSales ≤ r.total_sales))).filter
    (fun r => decide (minJanSales ≤ r.jan_sales))

/-! ### Multi-file merger -/

/-- Modelled from the spec: the Multi-File Merger (§4.3) is present only in
later revisions of `app.py` and is absent from this snapshot (the UI uploads a
single file).  Deduplication by `url` keeping the LAST occurrence in the
ordered concatenation: a record is kept iff no later record has the same url.
The subsequent chronological sort and `listing_order` assignment permute the
result and are omitted; the claims checked here are invariant under them. -/
def dedupByUrl : List NormalizedRecord → List NormalizedRecord
  | [] => []
  | r :: rs =>
    if rs.any (fun s => s.url == r.url) then dedupByUrl rs else r :: dedupByUrl rs

/-- Modelled from the spec: the Multi-File Merger concatenates the normalized
Datasets in upload order and deduplicates by url, last occurrence winning. -/
def mergeDatasets (ds : List (List NormalizedRecord)) : List NormalizedRecord :=
  dedupByUrl ds.flatten

/-! ### The spec's version of schema detection (for comparison with the code) -/

/-- The schema-detection heuristic as the SPEC words it (§4.1 step 3): sample up
to 50 data rows' position-2 field, count the currency-like ones, and classify as
Priced iff the count reaches the threshold `thr` (the spec gives 3-5). -/
def detectPricedSpec (thr : Nat) (t : RawTable) : Bool :=
  decide (thr ≤ ((dataRows t).take 50).countP
    (fun row => currencyLike (cellStr (row.getD 2 none))))

/-! ### Concrete tables and records used by witnesses and counterexamples -/

/-- A minimal 5-column source (short schema). -/
def row5 : List (Option String) :=
  [some "gadget", some "https://www.ebay.com/itm/12", some "2", some "3", some "bad-date"]

/-- The table holding `row5`. -/
def tbl5 : RawTable := ⟨5, [row5]⟩

/-- The record `row5` normalizes to. -/
def rec5 : NormalizedRecord := normalizeRow layoutShort row5

/-- A 7-column table whose FIRST data row's position-2 field is not
currency-like while the five following rows' are: the spec's sampled count
(5 of 6) clears every threshold in the spec's 3-5 band, but the code inspects
only the first row. -/
def tblSniff : RawTable :=
  ⟨7, [some "p0", some "https://www.ebay.com/itm/10", some "hello",
        some "1", some "2", some "d", some "S"] ::
      List.replicate 5
        [some "p1", some "https://www.ebay.com/itm/11", some "$5.00",
         some "1", some "2", some "d", some "S"]⟩

/-- A structurally well-formed 4-column source. -/
def tbl4 : RawTable :=
  ⟨4, [[some "gadget", some "https://www.ebay.com/itm/9", some "1", some "2"]]⟩

/-- First row of the negative-price table: its position-2 field is
currency-like, so the source is detected as priced. -/
def rowNeg0 : List (Option String) :=
  [some "p", some "https://www.ebay.com/itm/20", some "$5.00",
   some "1", some "2", some "d", some "S"]

/-- Second row of the negative-price table: a negative price field. -/
def rowNeg1 : List (Option String) :=
  [some "q", some "https://www.ebay.com/itm/21", some "-7.50",
   some "1", some "2", some "d", some "S"]

/-- A priced source containing a negative price field. -/
def tblNeg : RawTable := ⟨7, [rowNeg0, rowNeg1]⟩

/-- The record with the negative price. -/
def recNeg : NormalizedRecord := normalizeRow layoutPriced rowNeg1

/-- A 6-column source whose status field carries surrounding whitespace. -/
def rowWs : List (Option String) :=
  [some "p", some "https://www.ebay.com/itm/3", some "1", some "2", some "d", some " ok "]

/-- The table holding `rowWs`. -/
def tblWs : RawTable := ⟨6, [rowWs]⟩

/-- The record `rowWs` normalizes to. -/
def recWs : NormalizedRecord := normalizeRow layoutStd rowWs

/-- A 5-column source whose url reads `ebayXcom`: no literal `"ebay.com"`
substring, but a match of the regex `ebay.com` (the dot matching `X`). -/
def rowWild : List (Option String) :=
  [some "gadget", some "https://www.ebayXcom/itm/5", some "1", some "2", some "d"]

/-- The table holding `rowWild`. -/
def tblWild : RawTable := ⟨5, [rowWild]⟩

/-- The record `rowWild` normalizes to. -/
def recWild : NormalizedRecord := normalizeRow layoutShort rowWild

/-- Merger witness: the record of source A. -/
def mRecA : NormalizedRecord :=
  { product := "a", url := "https://www.ebay.com/itm/77", dec_sales := 1, jan_sales := 1,
    price := 0, total_sales := 2, growth := 0, growth_pct := 0, dec_revenue := 0,
    jan_revenue := 0, total_revenue := 0, revenue_growth := 0, date_checked := none,
    status := "N/A", item_id := "77" }

/-- Merger witness: the later record of source B for the same url. -/
def mRecB : NormalizedRecord :=
  { product := "b", url := "https://www.ebay.com/itm/77", dec_sales := 4, jan_sales := 6,
    price := 0, total_sales := 10, growth := 2, growth_pct := 50, dec_revenue := 0,
    jan_revenue := 0, total_revenue := 0, revenue_growth := 0, date_checked := none,
    status := "N/A", item_id := "77" }

/-! ### Helper lemmas -/

lemma parse_eq {t : RawTable} {L : Layout} (hL : layoutOf t = some L) :
    parse_sales_data t = some (domainFilter ((dataRows t).map (normalizeRow L))) := by
  unfold parse_sales_data
  rw [hL]
  rfl

lemma exists_layout {t : RawTable} {ds : List NormalizedRecord}
    (hds : parse_sales_data t = some ds) : ∃ L, layoutOf t = some L := by
  unfold parse_sales_data at hds
  cases h : layoutOf t with
  | none => rw [h] at hds; simp at hds
  | some L => exact ⟨L, rfl⟩

lemma mem_parse {t : RawTable} {L : Layout} {ds : List NormalizedRecord}
    {r : NormalizedRecord} (hL : layoutOf t = some L)
    (hds : parse_sales_data t = some ds) (hr : r ∈ ds) :
    ∃ row ∈ dataRows t, r = normalizeRow L row ∧ keepRow r = true := by
  have h := parse_eq hL
  rw [hds] at h
  have hd : ds = domainFilter ((dataRows t).map (normalizeRow L)) := Option.some.inj h
  subst hd
  simp only [domainFilter] at hr
  obtain ⟨hm, hk⟩ := List.mem_filter.mp hr
  obtain ⟨row, hrow, heq⟩ := List.mem_map.mp hm
  exact ⟨row, hrow, heq.symm, hk⟩

lemma isEmpty_false_of_ne_nil {t : RawTable} (h : t.rows ≠ []) : t.rows.isEmpty = false := by
  cases hr : t.rows with
  | nil => exact absurd hr h
  | cons a l => rfl

/-! ### Claims -/

/-- C1: for every record in the Dataset produced by `parse_sales_data`, the
derived metrics satisfy exactly `total_sales = dec_sales + jan_sales`,
`growth = jan_sales - dec_sales`, `dec_revenue = dec_sales * price`,
`jan_revenue = jan_sales * price`, `total_revenue = total_sales * price` and
`revenue_growth = jan_revenue - dec_revenue` (exact over `ℚ`, hence within any
currency-precision tolerance). -/
theorem parse_derived_metrics (t : RawTable) (ds : List NormalizedRecord)
    (hds : parse_sales_data t = some ds) (r : NormalizedRecord) (hr : r ∈ ds) :
    r.total_sales = r.dec_sales + r.jan_sales ∧
    r.growth = r.jan_sales - r.dec_sales ∧
    r.dec_revenue = (r.dec_sales : ℚ) * r.price ∧
    r.jan_revenue = (r.jan_sales : ℚ) * r.price ∧
    r.total_revenue = (r.total_sales : ℚ) * r.price ∧
    r.revenue_growth = r.jan_revenue - r.dec_revenue := by
  obtain ⟨L, hL⟩ := exists_layout hds
  obtain ⟨row, hrow, rfl, hk⟩ := mem_parse hL hds hr
  exact ⟨rfl, rfl, rfl, rfl, rfl, rfl⟩

/-- Witness for C1 at a concrete parsed table. -/
theorem parse_derived_metrics_witness :
    rec5.total_sales = rec5.dec_sales + rec5.jan_sales ∧
    rec5.growth = rec5.jan_sales - rec5.dec_sales ∧
    rec5.dec_revenue = (rec5.dec_sales : ℚ) * rec5.price ∧
    rec5.jan_revenue = (rec5.jan_sales : ℚ) * rec5.price ∧
    rec5.total_revenue = (rec5.total_sales : ℚ) * rec5.price ∧
    rec5.revenue_growth = rec5.jan_revenue - rec5.dec_revenue :=
  parse_derived_metrics tbl5 [rec5] rfl rec5 (List.mem_singleton.mpr rfl)

/-- C2: for every record, `growth_pct` is `(growth / dec_sales) * 100` when
`dec_sales > 0`, `100` when `dec_sales = 0` and `jan_sales > 0`, and `0` when
both are `0`; moreover the boundary evaluations `(0,0) ↦ 0`, `(0,5) ↦ 100`,
`(10,15) ↦ 50`, `(10,0) ↦ -100` hold for the growth-percent computation. -/
theorem parse_growth_pct (t : RawTable) (ds : List NormalizedRecord)
    (hds : parse_sales_data t = some ds) (r : NormalizedRecord) (hr : r ∈ ds) :
    (0 < r.dec_sales → r.growth_pct = ((r.growth : ℚ) / (r.dec_sales : ℚ)) * 100) ∧
    (r.dec_sales = 0 → 0 < r.jan_sales → r.growth_pct = 100) ∧
    (r.dec_sales = 0 → r.jan_sales = 0 → r.growth_pct = 0) ∧
    growthPctOf 0 0 = 0 ∧ growthPctOf 0 5 = 100 ∧
    growthPctOf 10 15 = 50 ∧ growthPctOf 10 0 = -100 := by
  obtain ⟨L, hL⟩ := exists_layout hds
  obtain ⟨row, hrow, rfl, hk⟩ := mem_parse hL hds hr
  have hpq : (normalizeRow L row).growth_pct =
      growthPctOf (normalizeRow L row).dec_sales (normalizeRow L row).jan_sales := rfl
  have hg : (normalizeRow L row).growth =
      (normalizeRow L row).jan_sales - (normalizeRow L row).dec_sales := rfl
  refine ⟨?_, ?_, ?_, by norm_num [growthPctOf], by norm_num [growthPctOf],
    by norm_num [growthPctOf], by norm_num [growthPctOf]⟩
  · intro h
    rw [hpq, hg]
    unfold growthPctOf
    rw [if_pos h]
    push_cast
    ring
  · intro h0 hj
    rw [hpq]
    unfold growthPctOf
    rw [h0]
    simp [hj]
  · intro h0 hj
    rw [hpq]
    unfold growthPctOf
    rw [h0, hj]
    simp

/-- Witness for C2 at a concrete parsed table. -/
theorem parse_growth_pct_witness :
    (0 < rec5.dec_sales → rec5.growth_pct = ((rec5.growth : ℚ) / (rec5.dec_sales : ℚ)) * 100) ∧
    (rec5.dec_sales = 0 → 0 < rec5.jan_sales → rec5.growth_pct = 100) ∧
    (rec5.dec_sales = 0 → rec5.jan_sales = 0 → rec5.growth_pct = 0) ∧
    growthPctOf 0 0 = 0 ∧ growthPctOf 0 5 = 100 ∧
    growthPctOf 10 15 = 50 ∧ growthPctOf 10 0 = -100 :=
  parse_growth_pct tbl5 [rec5] rfl rec5 (List.mem_singleton.mpr rfl)

/-- C3 counterexample: a parseable row whose url is `https://www.ebayXcom/itm/5`
is KEPT by the code — `str.contains("ebay.com", na=False)` interprets the
pattern as a regex, the dot matching the `X` — although the url does not
contain the literal substring `"ebay.com"`.  So "every record's url contains
the substring ebay.com" is false of the program. -/
theorem domain_literal_substring_counterexample :
    parse_sales_data tblWild = some [recWild] ∧
    hasSub recWild.url "ebay.com" = false :=
  ⟨rfl, rfl⟩

/-- C3 (amended): every record of the Dataset has a url containing a match of
the regex `ebay.com` (the dot a wildcard matching any one character), and for
every data row, its coerced record is in the Dataset iff its url contains such
a match — so the regex domain check is the only condition dropping a coerced
row. -/
theorem parse_domain_rejection (t : RawTable) (L : Layout) (ds : List NormalizedRecord)
    (hL : layoutOf t = some L) (hds : parse_sales_data t = some ds) :
    (∀ r ∈ ds, regexContains r.url "ebay.com" = true) ∧
    (∀ row ∈ dataRows t,
      (normalizeRow L row ∈ ds ↔ regexContains (normalizeRow L row).url "ebay.com" = true)) := by
  have h := parse_eq hL
  rw [hds] at h
  have hd : ds = domainFilter ((dataRows t).map (normalizeRow L)) := Option.some.inj h
  subst hd
  constructor
  · intro r hr
    simp only [domainFilter] at hr
    exact (List.mem_filter.mp hr).2
  · intro row hrow
    constructor
    · intro hm
      simp only [domainFilter] at hm
      exact (List.mem_filter.mp hm).2
    · intro hk
      simp only [domainFilter]
      exact List.mem_filter.mpr ⟨List.mem_map.mpr ⟨row, hrow, rfl⟩, hk⟩

/-- Witness for C3's amended theorem at a concrete parsed table. -/
theorem parse_domain_rejection_witness : regexContains rec5.url "ebay.com" = true :=
  (parse_domain_rejection tbl5 layoutShort [rec5] rfl rfl).1 rec5 (List.mem_singleton.mpr rfl)

/-- C4 counterexample: a 7-column source whose first data row's position-2
field is not currency-like while the next five rows' fields are.  The spec's
sampled count (5 of the first 50 rows) clears every threshold in the spec's
3-5 band, so the spec-worded detector classifies the source as Priced; the
code classifies it as no-price (first row only), assigns the standard layout,
and defaults the price of the `$5.00`-bearing row to 0. -/
theorem detect_priced_spec_counterexample :
    7 ≤ tblSniff.numCols ∧
    (detectPricedSpec 3 tblSniff = true ∧ detectPricedSpec 4 tblSniff = true ∧
      detectPricedSpec 5 tblSniff = true) ∧
    formatNew tblSniff = false ∧
    layoutOf tblSniff = some layoutStd ∧
    (normalizeRow layoutStd (tblSniff.rows.getD 1 [])).price = 0 :=
  ⟨by decide, ⟨by decide, by decide, by decide⟩, rfl, rfl, rfl⟩

/-- C4 (amended): for a source of width at least 7, the code samples ONLY the
first data row's position-2 field; the source is classified Priced iff that
single field is currency-like (contains `$`, or is a decimal numeral containing
a point), and otherwise it is treated as no-price standard with every price
defaulted to 0 and excess columns ignored. -/
theorem detect_priced_first_row (t : RawTable) (h7 : 7 ≤ t.numCols)
    (hne : t.rows ≠ []) :
    (currencyLike (sampleVal (dataRows t)) = true → layoutOf t = some layoutPriced) ∧
    (currencyLike (sampleVal (dataRows t)) = false →
      layoutOf t = some layoutStd ∧
      ∀ ds, parse_sales_data t = some ds → ∀ r ∈ ds, r.price = 0) := by
  have hE : t.rows.isEmpty = false := isEmpty_false_of_ne_nil hne
  constructor
  · intro hc
    simp [layoutOf, hE, formatNew, h7, hc]
  · intro hc
    have hL : layoutOf t = some layoutStd := by
      have h6 : 6 ≤ t.numCols := by omega
      simp [layoutOf, hE, formatNew, hc, h6]
    refine ⟨hL, ?_⟩
    intro ds hds r hr
    obtain ⟨row, hrow, rfl, hk⟩ := mem_parse hL hds hr
    rfl

/-- Witness for C4's amended theorem at a concrete priced table. -/
theorem detect_priced_first_row_witness : layoutOf tblNeg = some layoutPriced :=
  (detect_priced_first_row tblNeg (by decide) (by decide)).1 rfl

/-- C5 counterexample: a structurally well-formed 4-column source (at least 3
and fewer than 6 columns) for which the claim asserts a successful NoPriceShort
parse, but the code takes the structural-failure branch (it requires at least
5 columns). -/
theorem short_schema_counterexample :
    3 ≤ tbl4.numCols ∧ tbl4.numCols < 6 ∧ parse_sales_data tbl4 = none :=
  ⟨by decide, by decide, rfl⟩

/-- C5 (amended): a source with at least 5 and fewer than 6 columns parses with
the short no-price layout, price defaulted to 0 and status defaulted to
`"N/A"`; a source with fewer than 5 columns (the code's threshold, not 3) is a
structural failure yielding the empty-Dataset-with-error outcome. -/
theorem short_schema_bounds (t : RawTable) :
    (t.rows ≠ [] → 5 ≤ t.numCols → t.numCols < 6 →
      layoutOf t = some layoutShort ∧
      ∀ r ∈ (parse_sales_data t).getD [], r.price = 0 ∧ r.status = "N/A") ∧
    (t.numCols < 5 → parse_sales_data t = none) := by
  constructor
  · intro hne h5 h6
    have hE : t.rows.isEmpty = false := isEmpty_false_of_ne_nil hne
    have hL : layoutOf t = some layoutShort := by
      have h7 : ¬ 7 ≤ t.numCols := by omega
      have h6d : ¬ 6 ≤ t.numCols := by omega
      simp [layoutOf, hE, formatNew, h7, h6d, h5]
    refine ⟨hL, ?_⟩
    intro r hr
    have hds : parse_sales_data t =
        some (domainFilter ((dataRows t).map (normalizeRow layoutShort))) := parse_eq hL
    rw [hds] at hr
    simp only [Option.getD_some] at hr
    obtain ⟨row, hrow, rfl, hk⟩ := mem_parse hL hds hr
    exact ⟨rfl, rfl⟩
  · intro h5
    have hLn : layoutOf t = none := by
      have h7 : ¬ 7 ≤ t.numCols := by omega
      have h6d : ¬ 6 ≤ t.numCols := by omega
      have h5d : ¬ 5 ≤ t.numCols := by omega
      simp [layoutOf, formatNew, h7, h6d, h5d]
    unfold parse_sales_data
    rw [hLn]
    rfl

/-- Witness for C5's amended theorem at a concrete 5-column table. -/
theorem short_schema_bounds_witness : rec5.price = 0 ∧ rec5.status = "N/A" :=
  ((short_schema_bounds tbl5).1 (by decide) (by decide) (by decide)).2 rec5 (by
    have h : parse_sales_data tbl5 = some [rec5] := rfl
    rw [h]
    simp)

lemma dedupByUrl_filter (u : String) (l : List NormalizedRecord) :
    (dedupByUrl l).filter (fun r => r.url == u) =
      ((l.filter (fun r => r.url == u)).getLast?).toList := by
  induction l with
  | nil => rfl
  | cons r rs ih =>
    by_cases h : rs.any (fun s => s.url == r.url) = true
    · have hstep : dedupByUrl (r :: rs) = dedupByUrl rs := by
        simp [dedupByUrl, h]
      rw [hstep, ih]
      by_cases hru : r.url = u
      · have hex : ∃ s ∈ rs, s.url = u := by
          simp only [List.any_eq_true, beq_iff_eq] at h
          obtain ⟨s, hs, he⟩ := h
          exact ⟨s, hs, he.trans hru⟩
        have hne : rs.filter (fun s => s.url == u) ≠ [] := by
          obtain ⟨s, hs, he⟩ := hex
          intro hnil
          have : s ∈ rs.filter (fun s => s.url == u) :=
            List.mem_filter.mpr ⟨hs, by simp [he]⟩
          rw [hnil] at this
          exact absurd this (List.not_mem_nil s)
        rw [List.filter_cons_of_pos (by simp [hru])]
        cases hf : rs.filter (fun s => s.url == u) with
        | nil => exact absurd hf hne
        | cons x xs => rw [List.getLast?_cons_cons]
      · rw [List.filter_cons_of_neg (by simp [hru])]
    · have hstep : dedupByUrl (r :: rs) = r :: dedupByUrl rs := by
        simp [dedupByUrl, h]
      rw [hstep]
      by_cases hru : r.url = u
      · have hnone : ∀ s ∈ rs, ¬ s.url = u := by
          intro s hs he
          exact h (List.any_eq_true.mpr ⟨s, hs, by simp [he, hru]⟩)
        have hf : rs.filter (fun s => s.url == u) = [] := by
          rw [List.filter_eq_nil_iff]
          intro s hs
          simp [hnone s hs]
        have hfd : (dedupByUrl rs).filter (fun s => s.url == u) = [] := by
          rw [ih, hf]
          rfl
        rw [List.filter_cons_of_pos (by simp [hru]),
          List.filter_cons_of_pos (by simp [hru]), hfd, hf]
        rfl
      · rw [List.filter_cons_of_neg (by simp [hru]),
          List.filter_cons_of_neg (by simp [hru]), ih]

lemma dedupByUrl_length (l : List NormalizedRecord) :
    (dedupByUrl l).length = (l.map NormalizedRecord.url).dedup.length := by
  induction l with
  | nil => rfl
  | cons r rs ih =>
    by_cases h : rs.any (fun s => s.url == r.url) = true
    · have hm : r.url ∈ rs.map NormalizedRecord.url := by
        simp only [List.any_eq_true, beq_iff_eq] at h
        obtain ⟨s, hs, he⟩ := h
        exact List.mem_map.mpr ⟨s, hs, he⟩
      have hstep : dedupByUrl (r :: rs) = dedupByUrl rs := by
        simp [dedupByUrl, h]
      rw [hstep, List.map_cons, List.dedup_cons_of_mem hm, ih]
    · have hm : r.url ∉ rs.map NormalizedRecord.url := by
        intro hmem
        obtain ⟨s, hs, he⟩ := List.mem_map.mp hmem
        exact h (List.any_eq_true.mpr ⟨s, hs, by simp [he]⟩)
      have hstep : dedupByUrl (r :: rs) = r :: dedupByUrl rs := by
        simp [dedupByUrl, h]
      rw [hstep, List.map_cons, List.dedup_cons_of_not_mem hm]
      simp [ih]

/-- C6: merging Datasets deduplicates by url keeping the last occurrence in the
ordered concatenation — when sources A and B both contain a record for url `u`
and B's occurrence comes later, the merged Dataset contains exactly B's (last)
record for `u`, and the merged record count is the number of distinct urls
across the concatenation. -/
theorem merge_dedup_last_wins (A B : List NormalizedRecord) (u : String)
    (a b : NormalizedRecord) (ha : a ∈ A) (hau : a.url = u)
    (hb : (B.filter (fun r => r.url == u)).getLast? = some b) :
    (mergeDatasets [A, B]).filter (fun r => r.url == u) = [b] ∧
    (mergeDatasets [A, B]).length = ((A ++ B).map NormalizedRecord.url).dedup.length := by
  have hAB : mergeDatasets [A, B] = dedupByUrl (A ++ B) := by
    simp [mergeDatasets]
  constructor
  · rw [hAB, dedupByUrl_filter, List.filter_append]
    have hne : B.filter (fun r => r.url == u) ≠ [] := by
      intro hnil
      rw [hnil] at hb
      exact Option.noConfusion hb
    rw [List.getLast?_append_of_ne_nil _ hne, hb]
    rfl
  · rw [hAB, dedupByUrl_length]

/-- Witness for C6 at two concrete one-record sources sharing a url. -/
theorem merge_dedup_last_wins_witness :
    (mergeDatasets [[mRecA], [mRecB]]).filter
      (fun r => r.url == "https://www.ebay.com/itm/77") = [mRecB] ∧
    (mergeDatasets [[mRecA], [mRecB]]).length =
      (([mRecA] ++ [mRecB]).map NormalizedRecord.url).dedup.length :=
  merge_dedup_last_wins [mRecA] [mRecB] "https://www.ebay.com/itm/77" mRecA mRecB
    (List.mem_singleton.mpr rfl) rfl rfl

/-- C7 counterexample: a priced source with the price field `"-7.50"` yields a
Dataset record whose price is negative — the code strips and parses but never
clamps, so "price is a non-negative decimal" fails. -/
theorem price_negative_counterexample :
    parse_sales_data tblNeg = some [normalizeRow layoutPriced rowNeg0, recNeg] ∧
    recNeg.price < 0 := by
  refine ⟨rfl, ?_⟩
  have h : recNeg.price = -(((7 : ℕ) : ℚ) + ((50 : ℕ) : ℚ) / (10 : ℚ) ^ 2) := rfl
  rw [h]
  norm_num

/-- C7 (amended): every Dataset record's price is obtained from its source row
by stripping `$` and thousands separators and parsing as a decimal, defaulting
to 0 when the field is absent or unparseable and for every no-price layout; it
is not clamped, so a negative numeral yields a negative price. -/
theorem price_coercion (t : RawTable) (L : Layout) (ds : List NormalizedRecord)
    (hL : layoutOf t = some L) (hds : parse_sales_data t = some ds)
    (r : NormalizedRecord) (hr : r ∈ ds) :
    ∃ row ∈ dataRows t, r = normalizeRow L row ∧ r.price = priceOf L row ∧
      (L.priceIdx = none → r.price = 0) := by
  obtain ⟨row, hrow, rfl, hk⟩ := mem_parse hL hds hr
  refine ⟨row, hrow, rfl, rfl, ?_⟩
  intro hP
  show priceOf L row = 0
  rw [priceOf, hP]

/-- Witness for C7's amended theorem at a concrete parsed table. -/
theorem price_coercion_witness :
    ∃ row ∈ dataRows tbl5, rec5 = normalizeRow layoutShort row ∧
      rec5.price = priceOf layoutShort row ∧
      (layoutShort.priceIdx = none → rec5.price = 0) :=
  price_coercion tbl5 layoutShort [rec5] rfl rfl rec5 (List.mem_singleton.mpr rfl)

/-- C8 counterexample: a 6-column source whose status cell is `" ok "` yields a
Dataset record whose status keeps the surrounding whitespace — status is only
coerced to a string (`astype(str)`), never trimmed. -/
theorem status_untrimmed_counterexample :
    parse_sales_data tblWs = some [recWs] ∧ recWs.status = " ok " ∧
    trimStr recWs.status ≠ recWs.status :=
  ⟨rfl, rfl, by decide⟩

/-- C8 (amended): every Dataset record's product and url are the whitespace-
trimmed string coercions of their source cells; status is string-coerced but
NOT trimmed (and `"N/A"` when the layout lacks a status column). -/
theorem text_field_coercion (t : RawTable) (L : Layout) (ds : List NormalizedRecord)
    (hL : layoutOf t = some L) (hds : parse_sales_data t = some ds)
    (r : NormalizedRecord) (hr : r ∈ ds) :
    ∃ row ∈ dataRows t,
      r.product = trimStr (cellStr (row.getD 0 none)) ∧
      r.url = trimStr (cellStr (row.getD 1 none)) ∧
      r.status = statusOf L row := by
  obtain ⟨row, hrow, rfl, hk⟩ := mem_parse hL hds hr
  exact ⟨row, hrow, rfl, rfl, rfl⟩

/-- Witness for C8's amended theorem at a concrete parsed table. -/
theorem text_field_coercion_witness :
    ∃ row ∈ dataRows tblWs,
      recWs.product = trimStr (cellStr (row.getD 0 none)) ∧
      recWs.url = trimStr (cellStr (row.getD 1 none)) ∧
      recWs.status = statusOf layoutStd row :=
  text_field_coercion tblWs layoutStd [recWs] rfl rfl recWs (List.mem_singleton.mpr rfl)

/-- C9: the marketplace-domain filter is idempotent — filtering an already
filtered Dataset changes nothing, so no record is newly rejected on a second
pass. -/
theorem domain_filter_idempotent (d : List NormalizedRecord) :
    domainFilter (domainFilter d) = domainFilter d := by
  simp [domainFilter, List.filter_filter]

/-- C10: for every Dataset and every combination of filter parameters,
`apply_filters` returns a subsequence of its input; the input itself is left
untouched (the code operates on `df.copy()`, which the purity of the embedding
makes intrinsic). -/
theorem apply_filters_sublist (d : List NormalizedRecord) (cutoff : Option ℕ)
    (selectedProduct performanceFilter : String) (minTotalSales minJanSales : ℤ) :
    List.Sublist
      (apply_filters d cutoff selectedProduct performanceFilter minTotalSales minJanSales)
      d := by
  have h1 : List.Sublist (timeStage cutoff d) d := by
    cases cutoff with
    | none => exact List.Sublist.refl d
    | some c => exact List.filter_sublist d
  have h2 : List.Sublist (productStage selectedProduct (timeStage cutoff d))
      (timeStage cutoff d) := by
    unfold productStage
    split
    · exact List.filter_sublist _
    · exact List.Sublist.refl _
  have h3 : List.Sublist
      (perfStage performanceFilter (productStage selectedProduct (timeStage cutoff d)))
      (productStage selectedProduct (timeStage cutoff d)) := by
    unfold perfStage
    split_ifs <;> first
      | exact List.filter_sublist _
      | exact List.Sublist.refl _
  have h4 : List.Sublist
      (apply_filters d cutoff selectedProduct performanceFilter minTotalSales minJanSales)
      (perfStage performanceFilter (productStage selectedProduct (timeStage cutoff d))) :=
    List.Sublist.trans (List.filter_sublist _) (List.filter_sublist _)
  exact ((h4.trans h3).trans h2).trans h1
